import Mathlib

/-
Verification of the BAS file-IPC client (src/bas_client.py).

Modelling conventions of this shallow embedding:
* A Python `str` is a `List Nat` of Unicode code points; a Python `bytes`
  is a `List Nat` of values < 256.
* Python functions that can raise are embedded as `Option`-returning
  functions (the callers of interest catch all exceptions).
* `time.time()` is modelled by counting completed poll iterations: each
  iteration of the `_read_response` loop ends in `time.sleep(0.05)`, so
  after `k` iterations the elapsed time is `k * 50` milliseconds.
* Randomness (`random.randint` in `_next_id`) and the success of I/O
  operations (file write, file unlink, file read) are inputs of the model,
  supplied by an environment.
-/

/-- One code point is an ASCII hexadecimal digit (the alphabet produced by
`bytes.hex` and accepted by `bytes.fromhex`). -/
def IsHexDigitCp (c : Nat) : Prop :=
  (48 ≤ c ∧ c ≤ 57) ∨ (97 ≤ c ∧ c ≤ 102) ∨ (65 ≤ c ∧ c ≤ 70)

instance (c : Nat) : Decidable (IsHexDigitCp c) := by
  unfold IsHexDigitCp; infer_instance

/-- Numeric value of a hexadecimal digit code point, as `bytes.fromhex`
interprets it; `none` on a non-hex character (Python raises `ValueError`). -/
def hexVal (c : Nat) : Option Nat :=
  if 48 ≤ c ∧ c ≤ 57 then some (c - 48)
  else if 97 ≤ c ∧ c ≤ 102 then some (c - 87)
  else if 65 ≤ c ∧ c ≤ 70 then some (c - 55)
  else none

/-- Lowercase hexadecimal digit for a value < 16, as produced by
`bytes.hex`. -/
def hexDigit (n : Nat) : Nat :=
  if n < 10 then 48 + n else 87 + n

/-- `bytes.hex`: each byte becomes two lowercase hexadecimal digits. -/
def bytesToHex : List Nat → List Nat
  | [] => []
  | b :: rest => hexDigit (b / 16) :: hexDigit (b % 16) :: bytesToHex rest

/-- `bytes.fromhex`: pairs of hexadecimal digits, ASCII spaces between
pairs ignored; `none` (Python: `ValueError`) on a stray digit or a
non-hex character. -/
def hexToBytes : List Nat → Option (List Nat)
  | [] => some []
  | c :: rest =>
    if c = 32 then hexToBytes rest
    else
      match rest with
      | [] => none
      | c2 :: rest2 =>
        match hexVal c, hexVal c2 with
        | some hi, some lo =>
          match hexToBytes rest2 with
          | some bs => some ((hi * 16 + lo) :: bs)
          | none => none
        | _, _ => none

/-- A Unicode scalar value: encodable by `str.encode` (Python raises on
surrogates). -/
def IsScalar (v : Nat) : Prop :=
  v < 0xD800 ∨ (0xE000 ≤ v ∧ v < 0x110000)

instance (v : Nat) : Decidable (IsScalar v) := by
  unfold IsScalar; infer_instance

/-- UTF-8 encoding of a single code point (standard UTF-8, as used by
`str.encode`). -/
def utf8EncodeChar (v : Nat) : List Nat :=
  if v < 0x80 then [v]
  else if v < 0x800 then [0xC0 + v / 64, 0x80 + v % 64]
  else if v < 0x10000 then
    [0xE0 + v / 4096, 0x80 + v / 64 % 64, 0x80 + v % 64]
  else
    [0xF0 + v / 262144, 0x80 + v / 4096 % 64, 0x80 + v / 64 % 64, 0x80 + v % 64]

/-- UTF-8 encoding of a string (`str.encode`). -/
def utf8Encode : List Nat → List Nat
  | [] => []
  | v :: rest => utf8EncodeChar v ++ utf8Encode rest

/-- UTF-8 decoding with replacement (`bytes.decode` with
`errors='replace'`), as a byte-at-a-time automaton.  The state carries a
partially assembled code point: accumulated bits, continuation bytes still
needed (1..3) and the smallest code point the sequence may legally encode
(overlong rejection).  The decoder is total; it is byte-exact on valid
UTF-8 (overlong forms, surrogates and out-of-range values are rejected,
as CPython does), and on invalid input it emits U+FFFD and resynchronises
(the exact number of U+FFFD per malformed sequence may differ from
CPython's; no property below depends on it). -/
def utf8DecodeSt : Option (Nat × Nat × Nat) → List Nat → List Nat
  | none, [] => []
  | some _, [] => [0xFFFD]
  | none, b :: rest =>
    if b < 0x80 then b :: utf8DecodeSt none rest
    else if 0xC2 ≤ b ∧ b < 0xE0 then utf8DecodeSt (some (b - 0xC0, 1, 0x80)) rest
    else if 0xE0 ≤ b ∧ b < 0xF0 then utf8DecodeSt (some (b - 0xE0, 2, 0x800)) rest
    else if 0xF0 ≤ b ∧ b < 0xF5 then utf8DecodeSt (some (b - 0xF0, 3, 0x10000)) rest
    else 0xFFFD :: utf8DecodeSt none rest
  | some (acc, needed, minCp), b :: rest =>
    if 0x80 ≤ b ∧ b < 0xC0 then
      if needed = 1 then
        if minCp ≤ acc * 64 + (b - 0x80)
            ∧ (acc * 64 + (b - 0x80) < 0xD800
               ∨ (0xE000 ≤ acc * 64 + (b - 0x80) ∧ acc * 64 + (b - 0x80) < 0x110000)) then
          (acc * 64 + (b - 0x80)) :: utf8DecodeSt none rest
        else 0xFFFD :: utf8DecodeSt none rest
      else utf8DecodeSt (some (acc * 64 + (b - 0x80), needed - 1, minCp)) rest
    else
      0xFFFD ::
        (if b < 0x80 then b :: utf8DecodeSt none rest
         else if 0xC2 ≤ b ∧ b < 0xE0 then utf8DecodeSt (some (b - 0xC0, 1, 0x80)) rest
         else if 0xE0 ≤ b ∧ b < 0xF0 then utf8DecodeSt (some (b - 0xE0, 2, 0x800)) rest
         else if 0xF0 ≤ b ∧ b < 0xF5 then utf8DecodeSt (some (b - 0xF0, 3, 0x10000)) rest
         else 0xFFFD :: utf8DecodeSt none rest)

/-- `bytes.decode('utf-8', errors='replace')`. -/
def utf8Decode (bs : List Nat) : List Nat :=
  utf8DecodeSt none bs

/-- `BASClient._string_to_hex`: `s.encode('utf-8').hex()`. -/
def string_to_hex (s : List Nat) : List Nat :=
  bytesToHex (utf8Encode s)

/-- `BASClient._hex_to_string`: `bytes.fromhex(h).decode('utf-8',
errors='replace')`; `none` models the `ValueError` that `fromhex` raises
on non-hex input. -/
def hex_to_string (h : List Nat) : Option (List Nat) :=
  (hexToBytes h).map utf8Decode

/-- Code points of a string literal (helper for spelling Python string
constants). -/
def pys (s : String) : List Nat :=
  s.data.map Char.toNat

mutual
/-- Python's JSON value domain as used by the client: `None`, booleans,
integers, strings, lists and dicts.  Number lexemes with a fraction or
exponent part are outside this model (the protocol's numbers are
integers); dict fields are kept in insertion order, later duplicates
shadowing earlier ones on lookup, as in `json.loads`. -/
inductive Json where
  | null : Json
  | bool : Bool → Json
  | num : Int → Json
  | str : List Nat → Json
  | arr : JsonList → Json
  | obj : JsonFields → Json
/-- A list of JSON values (spine of a JSON array). -/
inductive JsonList where
  | nil : JsonList
  | cons : Json → JsonList → JsonList
/-- Ordered fields of a JSON object. -/
inductive JsonFields where
  | nil : JsonFields
  | cons : List Nat → Json → JsonFields → JsonFields
end

/-- Build object fields from an ordinary list of pairs. -/
def JsonFields.ofList : List (List Nat × Json) → JsonFields
  | [] => JsonFields.nil
  | (k, v) :: rest => JsonFields.cons k v (JsonFields.ofList rest)

/-- Build a JSON array spine from an ordinary list. -/
def JsonList.ofList : List Json → JsonList
  | [] => JsonList.nil
  | x :: rest => JsonList.cons x (JsonList.ofList rest)

/-- Dict lookup where a later duplicate key shadows an earlier one
(CPython dict insertion semantics under `json.loads`). -/
def lookupLastAux : JsonFields → List Nat → Option Json → Option Json
  | JsonFields.nil, _, cur => cur
  | JsonFields.cons k v tl, key, cur =>
    lookupLastAux tl key (if k = key then some v else cur)

/-- `dict.get(key)`: `some` value or `none` (Python `None`) when absent or
when the receiver is not a dict (in the polling loop a non-dict makes
`.get` raise `AttributeError`, which the caller's `except` turns into a
skip; see `scanLines`). -/
def jsonGet : Json → List Nat → Option Json
  | Json.obj fs, key => lookupLastAux fs key none
  | _, _ => none

/-- Decimal digits of a natural number, most significant first.  The fuel
argument (always at least the number of digits) keeps the recursion
structural. -/
def natToDecAux : Nat → Nat → List Nat → List Nat
  | 0, _, acc => acc
  | fuel + 1, n, acc =>
    if n < 10 then (48 + n) :: acc
    else natToDecAux fuel (n / 10) ((48 + n % 10) :: acc)

/-- Decimal representation of a natural number. -/
def natToDec (n : Nat) : List Nat :=
  natToDecAux (n + 1) n []

/-- Decimal representation of an integer (Python `repr` of an `int`). -/
def intToDec (i : Int) : List Nat :=
  if i < 0 then 45 :: natToDec i.natAbs else natToDec i.natAbs

/-- JSON string escaping of one code point, as `json.dumps` with
`ensure_ascii=False` emits it: backslash escapes for quote, backslash and
the common control characters, `\u00XX` for other control characters,
everything else verbatim. -/
def escChar (c : Nat) : List Nat :=
  if c = 34 then [92, 34]
  else if c = 92 then [92, 92]
  else if c = 8 then [92, 98]
  else if c = 9 then [92, 116]
  else if c = 10 then [92, 110]
  else if c = 12 then [92, 102]
  else if c = 13 then [92, 114]
  else if c < 32 then [92, 117, 48, 48, hexDigit (c / 16), hexDigit (c % 16)]
  else [c]

/-- JSON string escaping of a whole string. -/
def escStr : List Nat → List Nat
  | [] => []
  | c :: rest => escChar c ++ escStr rest

/-- A JSON string literal: quote, escaped body, quote. -/
def dumpsStr (s : List Nat) : List Nat :=
  34 :: (escStr s ++ [34])

mutual
/-- `json.dumps(x, ensure_ascii=False)`: canonical serialization with the
default separators `", "` and `": "`, fields in insertion order. -/
def dumps : Json → List Nat
  | Json.null => [110, 117, 108, 108]
  | Json.bool true => [116, 114, 117, 101]
  | Json.bool false => [102, 97, 108, 115, 101]
  | Json.num i => intToDec i
  | Json.str s => dumpsStr s
  | Json.arr xs => 91 :: (dumpsList xs ++ [93])
  | Json.obj fs => 123 :: (dumpsFields fs ++ [125])
/-- Serialize array elements joined by `", "`. -/
def dumpsList : JsonList → List Nat
  | JsonList.nil => []
  | JsonList.cons x JsonList.nil => dumps x
  | JsonList.cons x (JsonList.cons y tl) =>
    dumps x ++ [44, 32] ++ dumpsList (JsonList.cons y tl)
/-- Serialize object fields joined by `", "`, each as `key: value`. -/
def dumpsFields : JsonFields → List Nat
  | JsonFields.nil => []
  | JsonFields.cons k v JsonFields.nil => dumpsStr k ++ [58, 32] ++ dumps v
  | JsonFields.cons k v (JsonFields.cons k2 v2 tl) =>
    dumpsStr k ++ [58, 32] ++ dumps v ++ [44, 32]
      ++ dumpsFields (JsonFields.cons k2 v2 tl)
end

/-- JSON whitespace accepted between tokens by `json.loads`. -/
def isJsonWs (c : Nat) : Bool :=
  c = 32 || c = 9 || c = 10 || c = 13

/-- Skip JSON whitespace. -/
def skipWs : List Nat → List Nat
  | [] => []
  | c :: rest => if isJsonWs c then skipWs rest else c :: rest

/-- Longest prefix of decimal digits, accumulated into a value. -/
def digitsAcc : Nat → List Nat → Nat × List Nat
  | acc, [] => (acc, [])
  | acc, c :: rest =>
    if 48 ≤ c ∧ c ≤ 57 then digitsAcc (acc * 10 + (c - 48)) rest
    else (acc, c :: rest)

/-- Head starts a fraction or exponent part (floats are outside this
model; such a lexeme is rejected rather than parsed). -/
def headFracExp : List Nat → Bool
  | c :: _ => c = 46 || c = 101 || c = 69
  | [] => false

/-- Head is a decimal digit. -/
def headDigit : List Nat → Bool
  | c :: _ => decide (48 ≤ c ∧ c ≤ 57)
  | [] => false

/-- Parse an unsigned JSON integer: `0` or a nonzero digit followed by
digits; a redundant leading zero is malformed JSON and rejected. -/
def parseUNumber : List Nat → Option (Nat × List Nat)
  | [] => none
  | c :: rest =>
    if c = 48 then
      if headDigit rest || headFracExp rest then none else some (0, rest)
    else if 49 ≤ c ∧ c ≤ 57 then
      match digitsAcc (c - 48) rest with
      | (v, rest2) => if headFracExp rest2 then none else some (v, rest2)
    else none

/-- Parse a JSON integer with optional leading minus. -/
def parseNumber : List Nat → Option (Int × List Nat)
  | 45 :: rest =>
    match parseUNumber rest with
    | some (v, rest2) => some (-(v : Int), rest2)
    | none => none
  | s =>
    match parseUNumber s with
    | some (v, rest2) => some ((v : Int), rest2)
    | none => none

/-- Parse the body of a JSON string after the opening quote, handling the
backslash escapes of `json.loads` (including `\uXXXX`); control
characters must be escaped (strict mode). -/
def parseStringBody : List Nat → Option (List Nat × List Nat)
  | [] => none
  | c :: rest =>
    if c = 34 then some ([], rest)
    else if c = 92 then
      match rest with
      | [] => none
      | e :: rest2 =>
        if e = 34 then
          match parseStringBody rest2 with
          | some (s, r) => some (34 :: s, r)
          | none => none
        else if e = 92 then
          match parseStringBody rest2 with
          | some (s, r) => some (92 :: s, r)
          | none => none
        else if e = 47 then
          match parseStringBody rest2 with
          | some (s, r) => some (47 :: s, r)
          | none => none
        else if e = 98 then
          match parseStringBody rest2 with
          | some (s, r) => some (8 :: s, r)
          | none => none
        else if e = 102 then
          match parseStringBody rest2 with
          | some (s, r) => some (12 :: s, r)
          | none => none
        else if e = 110 then
          match parseStringBody rest2 with
          | some (s, r) => some (10 :: s, r)
          | none => none
        else if e = 114 then
          match parseStringBody rest2 with
          | some (s, r) => some (13 :: s, r)
          | none => none
        else if e = 116 then
          match parseStringBody rest2 with
          | some (s, r) => some (9 :: s, r)
          | none => none
        else if e = 117 then
          match rest2 with
          | h1 :: h2 :: h3 :: h4 :: rest3 =>
            match hexVal h1, hexVal h2, hexVal h3, hexVal h4 with
            | some x1, some x2, some x3, some x4 =>
              match parseStringBody rest3 with
              | some (s, r) => some ((((x1 * 16 + x2) * 16 + x3) * 16 + x4) :: s, r)
              | none => none
            | _, _, _, _ => none
          | _ => none
        else none
    else if c < 32 then none
    else
      match parseStringBody rest with
      | some (s, r) => some (c :: s, r)
      | none => none

mutual
/-- Recursive-descent JSON value parser (`json.loads` grammar over this
model's domain).  The fuel argument only bounds recursion depth for
structural termination; `loads` supplies more fuel than any input can
consume. -/
def parseValue : Nat → List Nat → Option (Json × List Nat)
  | 0, _ => none
  | fuel + 1, s =>
    match skipWs s with
    | [] => none
    | c :: rest =>
      if c = 123 then
        match skipWs rest with
        | 125 :: rest2 => some (Json.obj JsonFields.nil, rest2)
        | other => parseMembers fuel [] other
      else if c = 91 then
        match skipWs rest with
        | 93 :: rest2 => some (Json.arr JsonList.nil, rest2)
        | other => parseElems fuel [] other
      else if c = 34 then
        match parseStringBody rest with
        | some (s2, r) => some (Json.str s2, r)
        | none => none
      else if c = 116 then
        match rest with
        | 114 :: 117 :: 101 :: r => some (Json.bool true, r)
        | _ => none
      else if c = 102 then
        match rest with
        | 97 :: 108 :: 115 :: 101 :: r => some (Json.bool false, r)
        | _ => none
      else if c = 110 then
        match rest with
        | 117 :: 108 :: 108 :: r => some (Json.null, r)
        | _ => none
      else
        match parseNumber (c :: rest) with
        | some (v, r) => some (Json.num v, r)
        | none => none
/-- Parse object members after `{` (input already whitespace-skipped and
known not to start with `}`). -/
def parseMembers : Nat → List (List Nat × Json) → List Nat → Option (Json × List Nat)
  | 0, _, _ => none
  | fuel + 1, acc, s =>
    match s with
    | 34 :: rest =>
      match parseStringBody rest with
      | some (k, rest2) =>
        match skipWs rest2 with
        | 58 :: rest3 =>
          match parseValue fuel rest3 with
          | some (v, rest4) =>
            match skipWs rest4 with
            | 44 :: rest5 => parseMembers fuel (acc ++ [(k, v)]) (skipWs rest5)
            | 125 :: rest5 => some (Json.obj (JsonFields.ofList (acc ++ [(k, v)])), rest5)
            | _ => none
          | none => none
        | _ => none
      | none => none
    | _ => none
/-- Parse array elements after `[` (input known not to start with `]`). -/
def parseElems : Nat → List Json → List Nat → Option (Json × List Nat)
  | 0, _, _ => none
  | fuel + 1, acc, s =>
    match parseValue fuel s with
    | some (v, rest) =>
      match skipWs rest with
      | 44 :: rest2 => parseElems fuel (acc ++ [v]) rest2
      | 93 :: rest2 => some (Json.arr (JsonList.ofList (acc ++ [v])), rest2)
      | _ => none
    | none => none
end

/-- `json.loads`: parse one JSON document, rejecting trailing garbage. -/
def loads (s : List Nat) : Option Json :=
  match parseValue (s.length + 2) s with
  | some (j, rest) => if skipWs rest = [] then some j else none
  | none => none

deriving instance DecidableEq for Json

/-- ASCII whitespace stripped by `str.strip` (the protocol's lines are
ASCII, being hex). -/
def isPySpace (c : Nat) : Bool :=
  c = 32 || c = 9 || c = 10 || c = 13 || c = 11 || c = 12

/-- `str.strip()`. -/
def pyStrip (s : List Nat) : List Nat :=
  ((s.dropWhile isPySpace).reverse.dropWhile isPySpace).reverse

/-- `str.split('\n')`. -/
def splitNl : List Nat → List (List Nat)
  | [] => [[]]
  | c :: rest =>
    match splitNl rest with
    | [] => [[]]
    | h :: t => if c = 10 then [] :: h :: t else (c :: h) :: t

/-- The inner decode attempt of `_read_response` on one stripped line:
`_hex_to_string` applied twice, then `json.loads`; `none` models any
exception on the way (caught by the `except` that skips the line). -/
def decodeLine (line : List Nat) : Option Json :=
  match hexToBytes line with
  | none => none
  | some bs =>
    match hexToBytes (utf8Decode bs) with
    | none => none
    | some bs2 => loads (utf8Decode bs2)

/-- The key "id". -/
def idKey : List Nat := pys ("id")

/-- The key "data". -/
def dataKey : List Nat := pys ("data")

/-- `response.get('id') == expected_id` for a decoded response.  A
non-dict response makes `.get` raise `AttributeError` in the source, which
the enclosing `except` turns into exactly the behaviour of `false` here
(skip the line, keep scanning). -/
def idMatches (r : Json) (expected : Int) : Bool :=
  decide (jsonGet r idKey = some (Json.num expected))

/-- One pass of `_read_response` over the lines of the inbound file:
skip blank or already-checked lines, mark fresh lines checked, attempt
the double decode, and return the first response whose identifier
matches.  Returns the match (if any) and the updated checked set. -/
def scanLines (expected : Int) : List (List Nat) → List (List Nat) → Option Json × List (List Nat)
  | checked, [] => (none, checked)
  | checked, line :: rest =>
    if pyStrip line = [] ∨ pyStrip line ∈ checked then
      scanLines expected checked rest
    else
      match decodeLine (pyStrip line) with
      | some r =>
        if idMatches r expected then (some r, pyStrip line :: checked)
        else scanLines expected (pyStrip line :: checked) rest
      | none => scanLines expected (pyStrip line :: checked) rest

/-- The poll interval of the loop (`self._poll_interval = 0.05`), in
milliseconds. -/
def pollIntervalMs : Nat := 50

/-- Outcome of `_read_response`: the returned value, the elapsed time at
the moment of return, and whether the unlink of the inbound file was
attempted. -/
structure ReadOutcome where
  result : Option Json
  elapsedMs : Nat
  unlinked : Bool

/-- The polling loop of `_read_response`.  `env k` is the content of the
inbound file as iteration `k` observes it (`none`: the file does not
exist, or reading it raised — both continue to the next iteration).
`unlinkOk` is whether the unlink on a match would succeed; the source
wraps the unlink in `try/except: pass`, so it cannot influence the
returned value.  The `fuel` argument only makes the recursion structural:
`read_response` passes `timeoutMs + 1`, which exceeds the iteration count
`⌈timeoutMs / 50⌉` that the time check admits, so the `fuel = 0` base is
never the exit taken. -/
def readLoopAux (env : Nat → Option (List Nat)) (expected : Int) (timeoutMs : Nat)
    (unlinkOk : Bool) : Nat → List (List Nat) → Nat → ReadOutcome
  | 0, _, k => ⟨none, k * pollIntervalMs, false⟩
  | fuel + 1, checked, k =>
    if k * pollIntervalMs < timeoutMs then
      match env k with
      | none => readLoopAux env expected timeoutMs unlinkOk fuel checked (k + 1)
      | some content =>
        match scanLines expected checked (splitNl (pyStrip content)) with
        | (some r, _) => ⟨some r, k * pollIntervalMs, true⟩
        | (none, checked2) => readLoopAux env expected timeoutMs unlinkOk fuel checked2 (k + 1)
    else ⟨none, k * pollIntervalMs, false⟩

/-- `BASClient._read_response(expected_id, timeout)`. -/
def read_response (env : Nat → Option (List Nat)) (expected : Int) (timeoutMs : Nat)
    (unlinkOk : Bool) : ReadOutcome :=
  readLoopAux env expected timeoutMs unlinkOk (timeoutMs + 1) [] 0

/-- The command dict built by `_call`:
`{"type": cmd_type, "id": msg_id, "data": data}`. -/
def commandJson (t : List Nat) (msgId : Int) (d : Json) : Json :=
  Json.obj (JsonFields.cons (pys ("type")) (Json.str t)
    (JsonFields.cons idKey (Json.num msgId)
      (JsonFields.cons dataKey d JsonFields.nil)))

/-- What `_write_command` puts in the outbound file:
`_string_to_hex(json.dumps(cmd, ensure_ascii=False))`. -/
def encodeCommand (c : Json) : List Nat :=
  string_to_hex (dumps c)

/-- `_write_command`, seen as a file-system update: the file is opened
with mode `'w'`, so the previous content `prev` is discarded wholesale. -/
def write_command_file (cmd : Json) (prev : Option (List Nat)) : List Nat :=
  encodeCommand cmd

/-- The failure payload of `_call` when the write fails. -/
def writeErrorPayload : Json :=
  Json.obj (JsonFields.cons (pys ("error"))
    (Json.str (pys ("Failed to write command"))) JsonFields.nil)

/-- `r.get(key)` as a Python value (`None` when absent). -/
def getOrNull (r : Json) (key : List Nat) : Json :=
  (jsonGet r key).getD Json.null

/-- Outcome of `_call`: the outbound file content if the write succeeded,
whether the polling phase was entered, the matched response (if any), and
the Python return value (`Json.null` stands for Python `None`). -/
structure CallOutcome where
  outFile : Option (List Nat)
  entered : Bool
  matched : Option Json
  result : Json

/-- `BASClient._call(cmd_type, data, timeout)`.  `writeOk` is whether the
outbound write succeeds (`_write_command` catches every exception and
returns a boolean), `msgId` is the identifier drawn by `_next_id`. -/
def callModel (env : Nat → Option (List Nat)) (writeOk unlinkOk : Bool)
    (t : List Nat) (d : Json) (msgId : Int) (timeoutMs : Nat) : CallOutcome :=
  if writeOk then
    match (read_response env msgId timeoutMs unlinkOk).result with
    | none => ⟨some (encodeCommand (commandJson t msgId d)), true, none, Json.null⟩
    | some r =>
      ⟨some (encodeCommand (commandJson t msgId d)), true, some r, getOrNull r dataKey⟩
  else ⟨none, false, none, writeErrorPayload⟩

/-- The default `timeout=30.0` of `_call` and `_read_response`, in
milliseconds. -/
def defaultTimeoutMs : Nat := 30000

/-- The `10.0` timeout that `ping` passes to `_read_response`, in
milliseconds. -/
def pingTimeoutMs : Nat := 10000

/-- `BASClient.ping()`: write `{"type": "ping", "id": msg_id, "data":
None}`, poll with the 10-unit timeout, report only whether some matching
response arrived. -/
def pingModel (env : Nat → Option (List Nat)) (writeOk unlinkOk : Bool)
    (msgId : Int) : Bool :=
  if writeOk then (read_response env msgId pingTimeoutMs unlinkOk).result.isSome
  else false

/-- Python truthiness on the JSON value domain. -/
def pyTruthy : Json → Bool
  | Json.null => false
  | Json.bool b => b
  | Json.num n => decide (n ≠ 0)
  | Json.str s => decide (s ≠ [])
  | Json.arr JsonList.nil => false
  | Json.arr (JsonList.cons _ _) => true
  | Json.obj JsonFields.nil => false
  | Json.obj (JsonFields.cons _ _ _) => true

/-- Python `a or b`. -/
def pyOr (a b : Json) : Json :=
  if pyTruthy a then a else b

/-- `list_modules`: `await self._call("list-modules") or []`. -/
def list_modules_result (callResult : Json) : Json :=
  pyOr callResult (Json.arr JsonList.nil)

/-- Python `str()` of a JSON value, used by the f-string error message of
`execute_browser_js`.  Scalars are exact; for a dict/list the JSON form
stands in for Python's `repr` (quote style differs; the host's error
detail in this position is a string, so the difference is never
exercised by the properties below). -/
def pyStrOf : Json → List Nat
  | Json.null => pys ("None")
  | Json.bool true => pys ("True")
  | Json.bool false => pys ("False")
  | Json.num i => intToDec i
  | Json.str s => s
  | Json.arr xs => dumps (Json.arr xs)
  | Json.obj fs => dumps (Json.obj fs)

/-- Outcome of an ephemeral-action orchestrator: the `action_id` values
passed to `delete_actions` (one entry per delete call issued), and the
returned payload. -/
structure OrchOutcome where
  deletes : List Json
  result : Json

/-- `BASClient.load_page`, from the point where `create_action` has
returned `createResult` (the create/execute round trip itself goes
through `_call`, modelled above). -/
def load_page_model (createResult : Json) (url : List Nat) : OrchOutcome :=
  if getOrNull createResult (pys ("execution_result")) = Json.str (pys ("completed")) then
    ⟨(if pyTruthy (getOrNull createResult (pys ("action_id"))) then
        [getOrNull createResult (pys ("action_id"))] else []),
     Json.obj (JsonFields.cons (pys ("success")) (Json.bool true)
       (JsonFields.cons (pys ("url")) (Json.str url) JsonFields.nil))⟩
  else
    ⟨(if pyTruthy (getOrNull createResult (pys ("action_id"))) then
        [getOrNull createResult (pys ("action_id"))] else []),
     Json.obj (JsonFields.cons (pys ("success")) (Json.bool false)
       (JsonFields.cons (pys ("error"))
         ((jsonGet createResult (pys ("execution_error"))).getD
           (Json.str (pys ("Execution failed")))) JsonFields.nil))⟩

/-- `BASClient.execute_browser_js`, from the point where `create_action`
has returned `createResult`; when `saveTo` is given, `varResult` is what
the `get_variable` round trip returned. -/
def execute_browser_js_model (createResult : Json) (saveTo : Option (List Nat))
    (varResult : Json) : OrchOutcome :=
  if getOrNull createResult (pys ("execution_result")) = Json.str (pys ("completed")) then
    match saveTo with
    | none =>
      ⟨(if pyTruthy (getOrNull createResult (pys ("action_id"))) then
          [getOrNull createResult (pys ("action_id"))] else []),
       Json.obj (JsonFields.cons (pys ("success")) (Json.bool true) JsonFields.nil)⟩
    | some _ =>
      if pyTruthy (getOrNull varResult (pys ("success"))) then
        ⟨(if pyTruthy (getOrNull createResult (pys ("action_id"))) then
            [getOrNull createResult (pys ("action_id"))] else []),
         Json.obj (JsonFields.cons (pys ("success")) (Json.bool true)
           (JsonFields.cons (pys ("result")) (getOrNull varResult (pys ("value")))
             JsonFields.nil))⟩
      else
        ⟨(if pyTruthy (getOrNull createResult (pys ("action_id"))) then
            [getOrNull createResult (pys ("action_id"))] else []),
         Json.obj (JsonFields.cons (pys ("success")) (Json.bool false)
           (JsonFields.cons (pys ("error"))
             (Json.str (pys ("Failed to get result: ")
               ++ pyStrOf (getOrNull varResult (pys ("error"))))) JsonFields.nil))⟩
  else
    ⟨(if pyTruthy (getOrNull createResult (pys ("action_id"))) then
        [getOrNull createResult (pys ("action_id"))] else []),
     Json.obj (JsonFields.cons (pys ("success")) (Json.bool false)
       (JsonFields.cons (pys ("error"))
         ((jsonGet createResult (pys ("execution_error"))).getD
           (Json.str (pys ("Execution failed")))) JsonFields.nil))⟩

/-- A line of the inbound file yields a matching response for `expected`:
the double decode succeeds and the decoded identifier matches. -/
def LineMatches (expected : Int) (line : List Nat) : Prop :=
  ∃ r, decodeLine (pyStrip line) = some r ∧ idMatches r expected = true

/-- A concrete host response `{"id": 42, "data": true}`. -/
def r42 : Json :=
  Json.obj (JsonFields.cons idKey (Json.num 42)
    (JsonFields.cons dataKey (Json.bool true) JsonFields.nil))

/-- The doubly hex-encoded wire line for `r42`, as the host writes it. -/
def line42 : List Nat :=
  bytesToHex (utf8Encode (bytesToHex (utf8Encode (dumps r42))))

/-- The SINGLY hex-encoded form of `r42`'s JSON text (not a valid wire
line: the inbound protocol applies the mapping twice). -/
def lineSingle : List Nat :=
  bytesToHex (utf8Encode (dumps r42))

/-- An inbound file that always shows the `r42` wire line. -/
def env42 : Nat → Option (List Nat) :=
  fun _ => some line42

/-- An inbound file that never exists. -/
def envEmpty : Nat → Option (List Nat) :=
  fun _ => none

/-- A concrete host response `{"id": 43, "data": null}`. -/
def rNull : Json :=
  Json.obj (JsonFields.cons idKey (Json.num 43)
    (JsonFields.cons dataKey Json.null JsonFields.nil))

/-- The wire line for `rNull`. -/
def line43 : List Nat :=
  bytesToHex (utf8Encode (bytesToHex (utf8Encode (dumps rNull))))

/-- An inbound file that always shows the `rNull` wire line. -/
def env43 : Nat → Option (List Nat) :=
  fun _ => some line43

/-- A concrete failed `create_action` result carrying an object id and an
error detail. -/
def cr1 : Json :=
  Json.obj (JsonFields.cons (pys ("action_id")) (Json.num 5)
    (JsonFields.cons (pys ("execution_result")) (Json.str (pys ("error")))
      (JsonFields.cons (pys ("execution_error")) (Json.str (pys ("boom")))
        JsonFields.nil)))

lemma hexVal_hexDigit (x : Nat) (hx : x < 16) : hexVal (hexDigit x) = some x := by
  unfold hexDigit hexVal
  split_ifs <;> (try (simp only [Option.some.injEq]; omega)) <;> omega

lemma hexDigit_ne_32 (x : Nat) : hexDigit x ≠ 32 := by
  unfold hexDigit; split_ifs <;> omega

lemma hexDigit_ne_10 (x : Nat) : hexDigit x ≠ 10 := by
  unfold hexDigit; split_ifs <;> omega

lemma hexDigit_isHex (x : Nat) (hx : x < 16) : IsHexDigitCp (hexDigit x) := by
  unfold hexDigit IsHexDigitCp; split_ifs <;> omega

lemma hexToBytes_bytesToHex (bs : List Nat) (h : ∀ b ∈ bs, b < 256) :
    hexToBytes (bytesToHex bs) = some bs := by
  induction bs with
  | nil => rfl
  | cons b rest ih =>
    have hb : b < 256 := h b (List.mem_cons_self b rest)
    have hrest : ∀ x ∈ rest, x < 256 := fun x hx => h x (List.mem_cons_of_mem b hx)
    show hexToBytes (hexDigit (b / 16) :: hexDigit (b % 16) :: bytesToHex rest) = some (b :: rest)
    rw [hexToBytes]
    rw [if_neg (hexDigit_ne_32 (b / 16))]
    rw [hexVal_hexDigit (b / 16) (by omega), hexVal_hexDigit (b % 16) (by omega)]
    rw [ih hrest]
    simp only [Option.some.injEq, List.cons.injEq, and_true, true_and, eq_self_iff_true]
    omega

lemma bytesToHex_hex (bs : List Nat) (h : ∀ b ∈ bs, b < 256) :
    ∀ c ∈ bytesToHex bs, IsHexDigitCp c := by
  induction bs with
  | nil => intro c hc; cases hc
  | cons b rest ih =>
    have hb : b < 256 := h b (List.mem_cons_self b rest)
    intro c hc
    rcases hc with _ | ⟨_, hc⟩
    · exact hexDigit_isHex (b / 16) (by omega)
    · rcases hc with _ | ⟨_, hc⟩
      · exact hexDigit_isHex (b % 16) (by omega)
      · exact ih (fun x hx => h x (List.mem_cons_of_mem b hx)) c hc

lemma bytesToHex_ne_10 (bs : List Nat) : ∀ c ∈ bytesToHex bs, c ≠ 10 := by
  induction bs with
  | nil => intro c hc; cases hc
  | cons b rest ih =>
    intro c hc
    rcases hc with _ | ⟨_, hc⟩
    · exact hexDigit_ne_10 _
    · rcases hc with _ | ⟨_, hc⟩
      · exact hexDigit_ne_10 _
      · exact ih c hc

lemma utf8EncodeChar_lt_256 (v : Nat) (h : IsScalar v) :
    ∀ b ∈ utf8EncodeChar v, b < 256 := by
  unfold IsScalar at h
  unfold utf8EncodeChar
  intro b hb
  split_ifs at hb with h1 h2 h3
  · simp only [List.mem_singleton] at hb; omega
  · simp only [List.mem_cons, List.not_mem_nil, or_false] at hb
    rcases hb with rfl | rfl <;> omega
  · simp only [List.mem_cons, List.not_mem_nil, or_false] at hb
    rcases hb with rfl | rfl | rfl <;> omega
  · simp only [List.mem_cons, List.not_mem_nil, or_false] at hb
    rcases hb with rfl | rfl | rfl | rfl <;> omega

lemma utf8Encode_lt_256 (s : List Nat) (h : ∀ v ∈ s, IsScalar v) :
    ∀ b ∈ utf8Encode s, b < 256 := by
  induction s with
  | nil => intro b hb; cases hb
  | cons v rest ih =>
    intro b hb
    rw [utf8Encode] at hb
    rcases List.mem_append.mp hb with hb | hb
    · exact utf8EncodeChar_lt_256 v (h v (List.mem_cons_self v rest)) b hb
    · exact ih (fun x hx => h x (List.mem_cons_of_mem v hx)) b hb

lemma st_ascii (b : Nat) (hb : b < 0x80) (rest : List Nat) :
    utf8DecodeSt none (b :: rest) = b :: utf8DecodeSt none rest := by
  simp only [utf8DecodeSt]
  rw [if_pos hb]

lemma st_lead2 (b : Nat) (hb : 0xC2 ≤ b ∧ b < 0xE0) (rest : List Nat) :
    utf8DecodeSt none (b :: rest) = utf8DecodeSt (some (b - 0xC0, 1, 0x80)) rest := by
  simp only [utf8DecodeSt]
  rw [if_neg (by omega), if_pos hb]

lemma st_lead3 (b : Nat) (hb : 0xE0 ≤ b ∧ b < 0xF0) (rest : List Nat) :
    utf8DecodeSt none (b :: rest) = utf8DecodeSt (some (b - 0xE0, 2, 0x800)) rest := by
  simp only [utf8DecodeSt]
  rw [if_neg (by omega), if_neg (by omega), if_pos hb]

lemma st_lead4 (b : Nat) (hb : 0xF0 ≤ b ∧ b < 0xF5) (rest : List Nat) :
    utf8DecodeSt none (b :: rest) = utf8DecodeSt (some (b - 0xF0, 3, 0x10000)) rest := by
  simp only [utf8DecodeSt]
  rw [if_neg (by omega), if_neg (by omega), if_neg (by omega), if_pos hb]

lemma st_cont3 (acc minCp b : Nat) (hb : 0x80 ≤ b ∧ b < 0xC0) (rest : List Nat) :
    utf8DecodeSt (some (acc, 3, minCp)) (b :: rest)
      = utf8DecodeSt (some (acc * 64 + (b - 0x80), 2, minCp)) rest := by
  simp only [utf8DecodeSt]
  rw [if_pos hb, if_neg (by omega)]

lemma st_cont2 (acc minCp b : Nat) (hb : 0x80 ≤ b ∧ b < 0xC0) (rest : List Nat) :
    utf8DecodeSt (some (acc, 2, minCp)) (b :: rest)
      = utf8DecodeSt (some (acc * 64 + (b - 0x80), 1, minCp)) rest := by
  simp only [utf8DecodeSt]
  rw [if_pos hb, if_neg (by omega)]

lemma st_cont_fin (acc minCp b : Nat) (hb : 0x80 ≤ b ∧ b < 0xC0)
    (hok : minCp ≤ acc * 64 + (b - 0x80)
      ∧ (acc * 64 + (b - 0x80) < 0xD800
         ∨ (0xE000 ≤ acc * 64 + (b - 0x80) ∧ acc * 64 + (b - 0x80) < 0x110000)))
    (rest : List Nat) :
    utf8DecodeSt (some (acc, 1, minCp)) (b :: rest)
      = (acc * 64 + (b - 0x80)) :: utf8DecodeSt none rest := by
  simp only [utf8DecodeSt, if_true]
  rw [if_pos hb, if_pos hok]

lemma utf8Decode_encodeChar_append (v : Nat) (h : IsScalar v) (rest : List Nat) :
    utf8DecodeSt none (utf8EncodeChar v ++ rest) = v :: utf8DecodeSt none rest := by
  unfold IsScalar at h
  unfold utf8EncodeChar
  rcases Nat.lt_or_ge v 0x80 with h1 | h1
  · rw [if_pos h1]
    exact st_ascii v h1 rest
  · rw [if_neg (by omega)]
    rcases Nat.lt_or_ge v 0x800 with h2 | h2
    · rw [if_pos h2]
      show utf8DecodeSt none ((0xC0 + v / 64) :: (0x80 + v % 64) :: rest)
        = v :: utf8DecodeSt none rest
      have e1 := st_lead2 (0xC0 + v / 64) (by omega) ((0x80 + v % 64) :: rest)
      have e2 := st_cont_fin (0xC0 + v / 64 - 0xC0) 0x80 (0x80 + v % 64)
        (by omega) (by omega) rest
      rw [e1, e2,
        show (0xC0 + v / 64 - 0xC0) * 64 + (0x80 + v % 64 - 0x80) = v from by omega]
    · rw [if_neg (by omega)]
      rcases Nat.lt_or_ge v 0x10000 with h3 | h3
      · rw [if_pos h3]
        show utf8DecodeSt none
            ((0xE0 + v / 4096) :: (0x80 + v / 64 % 64) :: (0x80 + v % 64) :: rest)
          = v :: utf8DecodeSt none rest
        have e1 := st_lead3 (0xE0 + v / 4096) (by omega)
          ((0x80 + v / 64 % 64) :: (0x80 + v % 64) :: rest)
        have e2 := st_cont2 (0xE0 + v / 4096 - 0xE0) 0x800 (0x80 + v / 64 % 64)
          (by omega) ((0x80 + v % 64) :: rest)
        have e3 := st_cont_fin ((0xE0 + v / 4096 - 0xE0) * 64 + (0x80 + v / 64 % 64 - 0x80))
          0x800 (0x80 + v % 64) (by omega) (by omega) rest
        rw [e1, e2, e3,
          show ((0xE0 + v / 4096 - 0xE0) * 64 + (0x80 + v / 64 % 64 - 0x80)) * 64
            + (0x80 + v % 64 - 0x80) = v from by omega]
      · rw [if_neg (by omega)]
        show utf8DecodeSt none
            ((0xF0 + v / 262144) :: (0x80 + v / 4096 % 64)
              :: (0x80 + v / 64 % 64) :: (0x80 + v % 64) :: rest)
          = v :: utf8DecodeSt none rest
        have e1 := st_lead4 (0xF0 + v / 262144) (by omega)
          ((0x80 + v / 4096 % 64) :: (0x80 + v / 64 % 64) :: (0x80 + v % 64) :: rest)
        have e2 := st_cont3 (0xF0 + v / 262144 - 0xF0) 0x10000 (0x80 + v / 4096 % 64)
          (by omega) ((0x80 + v / 64 % 64) :: (0x80 + v % 64) :: rest)
        have e3 := st_cont2 ((0xF0 + v / 262144 - 0xF0) * 64 + (0x80 + v / 4096 % 64 - 0x80))
          0x10000 (0x80 + v / 64 % 64) (by omega) ((0x80 + v % 64) :: rest)
        have e4 := st_cont_fin
          (((0xF0 + v / 262144 - 0xF0) * 64 + (0x80 + v / 4096 % 64 - 0x80)) * 64
            + (0x80 + v / 64 % 64 - 0x80))
          0x10000 (0x80 + v % 64) (by omega) (by omega) rest
        rw [e1, e2, e3, e4,
          show (((0xF0 + v / 262144 - 0xF0) * 64 + (0x80 + v / 4096 % 64 - 0x80)) * 64
            + (0x80 + v / 64 % 64 - 0x80)) * 64 + (0x80 + v % 64 - 0x80) = v from by omega]

lemma utf8Decode_utf8Encode (s : List Nat) (h : ∀ v ∈ s, IsScalar v) :
    utf8Decode (utf8Encode s) = s := by
  unfold utf8Decode
  induction s with
  | nil => rfl
  | cons v rest ih =>
    rw [utf8Encode, utf8Decode_encodeChar_append v (h v (List.mem_cons_self v rest)),
      ih (fun x hx => h x (List.mem_cons_of_mem v hx))]

/-- Claim C7: the codec is a round trip over a safe character subset — for
every Unicode string `s` (a list of Unicode scalar values, the strings
Python can UTF-8-encode), `_hex_to_string (_string_to_hex s) = s`, and the
output of `_string_to_hex` consists only of hexadecimal digit
characters. -/
theorem hex_roundtrip_safe (s : List Nat) (hs : ∀ v ∈ s, IsScalar v) :
    hex_to_string (string_to_hex s) = some s
    ∧ ∀ c ∈ string_to_hex s, IsHexDigitCp c := by
  constructor
  · unfold hex_to_string string_to_hex
    rw [hexToBytes_bytesToHex _ (utf8Encode_lt_256 s hs)]
    show some (utf8Decode (utf8Encode s)) = some s
    rw [utf8Decode_utf8Encode s hs]
  · exact bytesToHex_hex _ (utf8Encode_lt_256 s hs)

/-- Witness for C7 at a concrete string whose code points cover all four
UTF-8 encoding lengths. -/
theorem hex_roundtrip_safe_witness :
    hex_to_string (string_to_hex [104, 945, 20013, 128512]) = some [104, 945, 20013, 128512]
    ∧ ∀ c ∈ string_to_hex [104, 945, 20013, 128512], IsHexDigitCp c :=
  hex_roundtrip_safe [104, 945, 20013, 128512] (by decide)

lemma scanLines_skip_noise (e : Int) (checked : List (List Nat)) (l : List Nat)
    (rest : List (List Nat)) (h1 : ¬(pyStrip l = [] ∨ pyStrip l ∈ checked))
    (h2 : decodeLine (pyStrip l) = none) :
    scanLines e checked (l :: rest) = scanLines e (pyStrip l :: checked) rest := by
  simp only [scanLines, if_neg h1, h2]

lemma scanLines_match_head (e : Int) (checked : List (List Nat)) (l : List Nat)
    (rest : List (List Nat)) (r : Json) (h1 : ¬(pyStrip l = [] ∨ pyStrip l ∈ checked))
    (h2 : decodeLine (pyStrip l) = some r) (h3 : idMatches r e = true) :
    scanLines e checked (l :: rest) = (some r, pyStrip l :: checked) := by
  simp only [scanLines, if_neg h1, h2, if_pos h3]

lemma scanLines_some_id (e : Int) :
    ∀ lines checked r c2, scanLines e checked lines = (some r, c2) →
      idMatches r e = true := by
  intro lines
  induction lines with
  | nil =>
    intro checked r c2 h
    simp only [scanLines, Prod.mk.injEq] at h
    exact absurd h.1 (by simp)
  | cons l rest ih =>
    intro checked r c2 h
    simp only [scanLines] at h
    split_ifs at h with h1
    · exact ih checked r c2 h
    · split at h
      next r2 heq =>
        split_ifs at h with h3
        · simp only [Prod.mk.injEq, Option.some.injEq] at h
          rw [← h.1]
          exact h3
        · exact ih (pyStrip l :: checked) r c2 h
      next heq => exact ih (pyStrip l :: checked) r c2 h

lemma scanLines_some_decoded (e : Int) :
    ∀ lines checked r c2, scanLines e checked lines = (some r, c2) →
      ∃ l ∈ lines, decodeLine (pyStrip l) = some r := by
  intro lines
  induction lines with
  | nil =>
    intro checked r c2 h
    simp only [scanLines, Prod.mk.injEq] at h
    exact absurd h.1 (by simp)
  | cons l rest ih =>
    intro checked r c2 h
    simp only [scanLines] at h
    split_ifs at h with h1
    · obtain ⟨l2, hm, hd⟩ := ih checked r c2 h
      exact ⟨l2, List.mem_cons_of_mem l hm, hd⟩
    · split at h
      next r2 heq =>
        split_ifs at h with h3
        · simp only [Prod.mk.injEq, Option.some.injEq] at h
          exact ⟨l, List.mem_cons_self l rest, by rw [heq, h.1]⟩
        · obtain ⟨l2, hm, hd⟩ := ih (pyStrip l :: checked) r c2 h
          exact ⟨l2, List.mem_cons_of_mem l hm, hd⟩
      next heq =>
        obtain ⟨l2, hm, hd⟩ := ih (pyStrip l :: checked) r c2 h
        exact ⟨l2, List.mem_cons_of_mem l hm, hd⟩

lemma scanLines_none_of_nomatch (e : Int) :
    ∀ lines, (∀ l ∈ lines, ¬ LineMatches e l) →
      ∀ checked, (scanLines e checked lines).1 = none := by
  intro lines
  induction lines with
  | nil => intro _ checked; rfl
  | cons l rest ih =>
    intro h checked
    have hrest : ∀ l2 ∈ rest, ¬ LineMatches e l2 :=
      fun l2 hm => h l2 (List.mem_cons_of_mem l hm)
    simp only [scanLines]
    split_ifs with h1
    · exact ih hrest checked
    · split
      next r2 heq =>
        split_ifs with h3
        · exact absurd ⟨r2, heq, h3⟩ (h l (List.mem_cons_self l rest))
        · exact ih hrest (pyStrip l :: checked)
      next heq => exact ih hrest (pyStrip l :: checked)

lemma readLoopAux_unlink_indep (env : Nat → Option (List Nat)) (e : Int) (t : Nat)
    (u1 u2 : Bool) :
    ∀ fuel checked k o1 o2, readLoopAux env e t u1 fuel checked k = o1 →
      readLoopAux env e t u2 fuel checked k = o2 → o1 = o2 := by
  intro fuel
  induction fuel with
  | zero =>
    intro checked k o1 o2 h1 h2
    rw [← h1, ← h2]
    rfl
  | succ fuel ih =>
    intro checked k o1 o2 h1 h2
    simp only [readLoopAux] at h1 h2
    split_ifs at h1 h2 with hk
    · split at h1
      next henv =>
        rw [henv] at h2
        exact ih checked (k + 1) o1 o2 h1 h2
      next content henv =>
        rw [henv] at h2
        split at h1
        next r ch2 hscan =>
          simp only [hscan] at h2
          rw [← h1, ← h2]
        next ch2 hscan =>
          simp only [hscan] at h2
          exact ih ch2 (k + 1) o1 o2 h1 h2
    · rw [← h1, ← h2]

lemma readLoopAux_timeout_lb (env : Nat → Option (List Nat)) (e : Int) (t : Nat)
    (u : Bool) :
    ∀ fuel checked k o, readLoopAux env e t u fuel checked k = o →
      t ≤ k * pollIntervalMs + fuel * pollIntervalMs →
      o.result = none → t ≤ o.elapsedMs := by
  intro fuel
  induction fuel with
  | zero =>
    intro checked k o h hinv _
    rw [← h]
    simp only [readLoopAux, pollIntervalMs] at hinv ⊢
    omega
  | succ fuel ih =>
    intro checked k o h hinv hres
    simp only [readLoopAux] at h
    split_ifs at h with hk
    · split at h
      next henv =>
        exact ih checked (k + 1) o h (by simp only [pollIntervalMs] at hinv ⊢; omega) hres
      next content henv =>
        split at h
        next r ch2 hscan =>
          rw [← h] at hres
          exact absurd hres (by simp)
        next ch2 hscan =>
          exact ih ch2 (k + 1) o h (by simp only [pollIntervalMs] at hinv ⊢; omega) hres
    · rw [← h]
      simp only [pollIntervalMs] at hk ⊢
      omega

lemma readLoopAux_some_props (env : Nat → Option (List Nat)) (e : Int) (t : Nat)
    (u : Bool) :
    ∀ fuel checked k o r, readLoopAux env e t u fuel checked k = o →
      o.result = some r →
      idMatches r e = true ∧ o.unlinked = true
        ∧ ∃ k2 content, env k2 = some content
            ∧ ∃ l ∈ splitNl (pyStrip content), decodeLine (pyStrip l) = some r := by
  intro fuel
  induction fuel with
  | zero =>
    intro checked k o r h hres
    rw [← h] at hres
    exact absurd hres (by simp [readLoopAux])
  | succ fuel ih =>
    intro checked k o r h hres
    simp only [readLoopAux] at h
    split_ifs at h with hk
    · split at h
      next henv =>
        exact ih checked (k + 1) o r h hres
      next content henv =>
        split at h
        next r2 ch2 hscan =>
          rw [← h] at hres
          have hr2 : r2 = r := by
            have hres2 : some r2 = some r := hres
            exact Option.some.inj hres2
          subst hr2
          refine ⟨scanLines_some_id e _ checked r2 ch2 hscan, by rw [← h], ?_⟩
          obtain ⟨l, hm, hd⟩ := scanLines_some_decoded e _ checked r2 ch2 hscan
          exact ⟨k, content, henv, l, hm, hd⟩
        next ch2 hscan =>
          exact ih ch2 (k + 1) o r h hres
    · rw [← h] at hres
      exact absurd hres (by simp)

lemma readLoopAux_nomatch_none (env : Nat → Option (List Nat)) (e : Int) (t : Nat)
    (u : Bool)
    (h : ∀ k content, env k = some content →
        ∀ l ∈ splitNl (pyStrip content), ¬ LineMatches e l) :
    ∀ fuel checked k o, readLoopAux env e t u fuel checked k = o → o.result = none := by
  intro fuel
  induction fuel with
  | zero =>
    intro checked k o heq
    rw [← heq]
    rfl
  | succ fuel ih =>
    intro checked k o heq
    simp only [readLoopAux] at heq
    split_ifs at heq with hk
    · split at heq
      next henv => exact ih checked (k + 1) o heq
      next content henv =>
        split at heq
        next r2 ch2 hscan =>
          have hnone := scanLines_none_of_nomatch e (splitNl (pyStrip content))
            (h k content henv) checked
          rw [hscan] at hnone
          exact absurd hnone (by simp)
        next ch2 hscan => exact ih ch2 (k + 1) o heq
    · rw [← heq]

lemma splitNl_no_nl : ∀ s : List Nat, (∀ c ∈ s, c ≠ 10) → splitNl s = [s] := by
  intro s
  induction s with
  | nil => intro _; rfl
  | cons c rest ih =>
    intro h
    have hrest : ∀ x ∈ rest, x ≠ 10 := fun x hx => h x (List.mem_cons_of_mem c hx)
    simp only [splitNl, ih hrest]
    rw [if_neg (h c (List.mem_cons_self c rest))]

/-- Claim C1: for every call made through `_call`, the `id` field written
into the outbound command equals the freshly allocated identifier passed
to `_read_response`, and `_read_response` returns a response only if that
response's `id` field equals this expected identifier — never a response
with a different identifier. -/
theorem call_id_correlation (env : Nat → Option (List Nat)) (u : Bool) (t : List Nat)
    (d : Json) (msgId : Int) (tmo : Nat) :
    jsonGet (commandJson t msgId d) idKey = some (Json.num msgId)
    ∧ (callModel env true u t d msgId tmo).outFile
        = some (encodeCommand (commandJson t msgId d))
    ∧ ∀ r, (callModel env true u t d msgId tmo).matched = some r →
        jsonGet r idKey = some (Json.num msgId) := by
  refine ⟨rfl, ?_, ?_⟩
  · unfold callModel
    cases hres : (read_response env msgId tmo u).result with
    | none => simp [hres]
    | some r => simp [hres]
  · intro r hr
    have hres : (read_response env msgId tmo u).result = some r := by
      unfold callModel at hr
      cases hres2 : (read_response env msgId tmo u).result with
      | none => simp [hres2] at hr
      | some r2 =>
        simp [hres2] at hr
        rw [hr]
    have hp := readLoopAux_some_props env msgId tmo u (tmo + 1) [] 0
      (read_response env msgId tmo u) r rfl hres
    exact of_decide_eq_true hp.1

/-- Witness for C1: a concrete call against a host that echoes
identifier 42 matches exactly the response with that identifier. -/
theorem call_id_correlation_witness :
    jsonGet r42 idKey = some (Json.num 42) :=
  (call_id_correlation env42 true (pys ("ping")) Json.null 42 defaultTimeoutMs).2.2 r42 rfl

/-- Claim C2: a line counts as a valid response only if the hex-to-string
inversion applied exactly twice followed by JSON parsing succeeds; a line
whose double decode or parse fails (for instance a singly-encoded line) is
skipped without raising, is never returned as a match, and the scan
continues with the next line. -/
theorem noise_line_skipped (e : Int) (checked : List (List Nat)) (l : List Nat)
    (rest : List (List Nat)) (hne : pyStrip l ≠ []) (hnc : pyStrip l ∉ checked)
    (hdec : decodeLine (pyStrip l) = none) :
    scanLines e checked (l :: rest) = scanLines e (pyStrip l :: checked) rest
    ∧ ∀ r c2, scanLines e checked (l :: rest) = (some r, c2) →
        decodeLine (pyStrip l) ≠ some r
        ∧ ∃ l2 ∈ l :: rest, decodeLine (pyStrip l2) = some r ∧ idMatches r e = true := by
  have h1 : ¬(pyStrip l = [] ∨ pyStrip l ∈ checked) := by
    intro hor
    rcases hor with h | h
    · exact hne h
    · exact hnc h
  constructor
  · exact scanLines_skip_noise e checked l rest h1 hdec
  · intro r c2 hscan
    refine ⟨by rw [hdec]; exact fun hc => Option.noConfusion hc, ?_⟩
    obtain ⟨l2, hm, hd2⟩ := scanLines_some_decoded e (l :: rest) checked r c2 hscan
    exact ⟨l2, hm, hd2, scanLines_some_id e (l :: rest) checked r c2 hscan⟩

/-- Witness for C2: the singly-encoded line for the id-42 response fails
the double decode and is skipped, the scan continuing with the genuine
doubly-encoded line after it. -/
theorem noise_line_skipped_witness :
    scanLines 42 [] [lineSingle, line42] = scanLines 42 [lineSingle] [line42] :=
  (noise_line_skipped 42 [] lineSingle [line42] (by decide) (by simp) (by decide)).1

/-- Claim C3: when no line ever matches the expected identifier,
`_read_response` returns `None` (absent) rather than raising, and only
once the elapsed time is at least the configured timeout — never
before. -/
theorem read_response_timeout_absent (env : Nat → Option (List Nat)) (e : Int)
    (tmo : Nat) (u : Bool)
    (h : ∀ k content, env k = some content →
        ∀ l ∈ splitNl (pyStrip content), ¬ LineMatches e l) :
    (read_response env e tmo u).result = none
    ∧ tmo ≤ (read_response env e tmo u).elapsedMs := by
  have hn := readLoopAux_nomatch_none env e tmo u h (tmo + 1) [] 0
    (read_response env e tmo u) rfl
  refine ⟨hn, ?_⟩
  exact readLoopAux_timeout_lb env e tmo u (tmo + 1) [] 0 (read_response env e tmo u) rfl
    (by simp only [pollIntervalMs]; omega) hn

/-- Witness for C3: polling a never-existing inbound file for 100 ms
returns absent with at least 100 ms elapsed. -/
theorem read_response_timeout_absent_witness :
    (read_response envEmpty 7 100 true).result = none
    ∧ 100 ≤ (read_response envEmpty 7 100 true).elapsedMs :=
  read_response_timeout_absent envEmpty 7 100 true
    (fun _ _ hc => Option.noConfusion hc)

/-- Claim C4: in `load_page` and `execute_browser_js`, whenever the
create step returned a (truthy) object identifier, exactly one
`delete_actions` call on that identifier is issued before the operation
returns, on the "completed" path and on every other path; and on the
failure path the returned payload carries the host-provided
`execution_error` detail (with the "Execution failed" default when the
host supplied none). -/
theorem ephemeral_cleanup_both_paths (createResult : Json) (url : List Nat)
    (saveTo : Option (List Nat)) (varResult : Json)
    (ht : pyTruthy (getOrNull createResult (pys ("action_id"))) = true) :
    (load_page_model createResult url).deletes
        = [getOrNull createResult (pys ("action_id"))]
    ∧ (execute_browser_js_model createResult saveTo varResult).deletes
        = [getOrNull createResult (pys ("action_id"))]
    ∧ (getOrNull createResult (pys ("execution_result")) ≠ Json.str (pys ("completed")) →
        (load_page_model createResult url).result
            = Json.obj (JsonFields.cons (pys ("success")) (Json.bool false)
                (JsonFields.cons (pys ("error"))
                  ((jsonGet createResult (pys ("execution_error"))).getD
                    (Json.str (pys ("Execution failed")))) JsonFields.nil))
        ∧ (execute_browser_js_model createResult saveTo varResult).result
            = Json.obj (JsonFields.cons (pys ("success")) (Json.bool false)
                (JsonFields.cons (pys ("error"))
                  ((jsonGet createResult (pys ("execution_error"))).getD
                    (Json.str (pys ("Execution failed")))) JsonFields.nil))) := by
  by_cases hc : getOrNull createResult (pys ("execution_result"))
      = Json.str (pys ("completed"))
  · refine ⟨?_, ?_, fun hne => absurd hc hne⟩
    · simp [load_page_model, hc, ht]
    · cases saveTo with
      | none => simp [execute_browser_js_model, hc, ht]
      | some name =>
        by_cases hv : pyTruthy (getOrNull varResult (pys ("success"))) = true
        · simp [execute_browser_js_model, hc, ht, hv]
        · simp [execute_browser_js_model, hc, ht, hv]
  · refine ⟨?_, ?_, fun _ => ⟨?_, ?_⟩⟩
    · simp [load_page_model, hc, ht]
    · simp [execute_browser_js_model, hc, ht]
    · simp [load_page_model, hc]
    · simp [execute_browser_js_model, hc]

/-- Witness for C4 at a concrete failed create result carrying
`action_id` 5 and error detail "boom". -/
theorem ephemeral_cleanup_both_paths_witness :
    (load_page_model cr1 (pys ("u"))).deletes = [getOrNull cr1 (pys ("action_id"))]
    ∧ (execute_browser_js_model cr1 none Json.null).deletes
        = [getOrNull cr1 (pys ("action_id"))]
    ∧ (load_page_model cr1 (pys ("u"))).result
        = Json.obj (JsonFields.cons (pys ("success")) (Json.bool false)
            (JsonFields.cons (pys ("error"))
              ((jsonGet cr1 (pys ("execution_error"))).getD
                (Json.str (pys ("Execution failed")))) JsonFields.nil)) := by
  have h := ephemeral_cleanup_both_paths cr1 (pys ("u")) none Json.null (by decide)
  exact ⟨h.1, h.2.1, (h.2.2 (by decide)).1⟩

/-- Claim C5: when `_read_response` finds a line whose decoded identifier
matches, it returns that response immediately (whatever lines follow),
the delete of the inbound file is attempted before returning, and a
failing delete is swallowed: the returned result does not depend on
whether the unlink succeeds. -/
theorem match_delete_and_return (env : Nat → Option (List Nat)) (e : Int) (tmo : Nat)
    (u u2 : Bool) (checked : List (List Nat)) (l : List Nat) (rest : List (List Nat))
    (r : Json) (hne : pyStrip l ≠ []) (hnc : pyStrip l ∉ checked)
    (hdec : decodeLine (pyStrip l) = some r) (hid : idMatches r e = true) :
    scanLines e checked (l :: rest) = (some r, pyStrip l :: checked)
    ∧ (∀ r2, (read_response env e tmo u).result = some r2 →
        (read_response env e tmo u).unlinked = true)
    ∧ (read_response env e tmo u).result = (read_response env e tmo u2).result := by
  have h1 : ¬(pyStrip l = [] ∨ pyStrip l ∈ checked) := by
    intro hor
    rcases hor with h | h
    · exact hne h
    · exact hnc h
  refine ⟨scanLines_match_head e checked l rest r h1 hdec hid, ?_, ?_⟩
  · intro r2 hr2
    exact (readLoopAux_some_props env e tmo u (tmo + 1) [] 0 (read_response env e tmo u)
      r2 rfl hr2).2.1
  · have hind := readLoopAux_unlink_indep env e tmo u u2 (tmo + 1) [] 0
      (read_response env e tmo u) (read_response env e tmo u2) rfl rfl
    rw [hind]

/-- Witness for C5 at the concrete id-42 exchange: the match is returned
immediately, the unlink is attempted, and a failing unlink gives the
same result. -/
theorem match_delete_and_return_witness :
    scanLines 42 [] [line42] = (some r42, [pyStrip line42])
    ∧ (read_response env42 42 100 true).unlinked = true
    ∧ (read_response env42 42 100 true).result = (read_response env42 42 100 false).result := by
  have h := match_delete_and_return env42 42 100 true false [] line42 [] r42
    (by decide) (by simp) (by decide) (by decide)
  exact ⟨h.1, h.2.1 r42 rfl, h.2.2⟩

/-- Claim C6: `_write_command` never raises (it reports failure as the
boolean it returns), and when it reports failure `_call` immediately
returns the `{"error": "Failed to write command"}` payload without ever
entering the response-polling phase. -/
theorem write_failure_short_circuit (env : Nat → Option (List Nat)) (u : Bool)
    (t : List Nat) (d : Json) (msgId : Int) (tmo : Nat) :
    (callModel env false u t d msgId tmo).result = writeErrorPayload
    ∧ (callModel env false u t d msgId tmo).entered = false
    ∧ (callModel env false u t d msgId tmo).outFile = none :=
  ⟨rfl, rfl, rfl⟩

/-- Claim C8: after every successful `_write_command` the outbound file
contains exactly the transport-safe encoding of the newly written
command: the previous content is irrelevant (full replacement) and the
content is a single line. -/
theorem write_replaces_outbound (cmd : Json) (prev prev2 : Option (List Nat)) :
    write_command_file cmd prev = encodeCommand cmd
    ∧ write_command_file cmd prev = write_command_file cmd prev2
    ∧ splitNl (write_command_file cmd prev) = [write_command_file cmd prev] :=
  ⟨rfl, rfl, splitNl_no_nl _ (bytesToHex_ne_10 _)⟩

/-- Claim C9: `ping` always returns a boolean: true iff the write
succeeded and a response matching the ping's identifier arrived within
ping's own 10-unit timeout (shorter than the 30-unit default), regardless
of the payload; false when the write fails. -/
theorem ping_liveness (env : Nat → Option (List Nat)) (w u : Bool) (msgId : Int) :
    pingTimeoutMs < defaultTimeoutMs
    ∧ (pingModel env w u msgId = true
        ↔ w = true ∧ ((read_response env msgId pingTimeoutMs u).result).isSome = true)
    ∧ (w = false → pingModel env w u msgId = false)
    ∧ ∀ r, (read_response env msgId pingTimeoutMs u).result = some r →
        jsonGet r idKey = some (Json.num msgId) := by
  refine ⟨by simp [pingTimeoutMs, defaultTimeoutMs], ?_, ?_, ?_⟩
  · cases w with
    | true => simp [pingModel]
    | false => simp [pingModel]
  · intro hw
    subst hw
    rfl
  · intro r hr
    exact of_decide_eq_true (readLoopAux_some_props env msgId pingTimeoutMs u
      (pingTimeoutMs + 1) [] 0 (read_response env msgId pingTimeoutMs u) r rfl hr).1

/-- Witness for C9 (Scenario A): the host writes the doubly-encoded
`{"id": 42, "data": true}`; `ping` returns true, and the matched response
carries identifier 42. -/
theorem ping_liveness_witness :
    pingModel env42 true true 42 = true
    ∧ jsonGet r42 idKey = some (Json.num 42) := by
  have h := ping_liveness env42 true true 42
  exact ⟨h.2.1.mpr ⟨rfl, by decide⟩, h.2.2.2 r42 (by decide)⟩

/-- Claim C10: `_call` returns only the response's `data` field, so a
matched response whose `data` is null produces `None` — the very value
returned on timeout — and public wrappers such as `list_modules` collapse
both onto their default through `or`. -/
theorem null_data_indistinguishable (env env2 : Nat → Option (List Nat)) (u u2 : Bool)
    (t1 t2 : List Nat) (d1 d2 : Json) (id1 id2 : Int) (tmo1 tmo2 : Nat) (r : Json)
    (h1 : (callModel env true u t1 d1 id1 tmo1).matched = some r)
    (h2 : jsonGet r dataKey = some Json.null)
    (h3 : (callModel env2 true u2 t2 d2 id2 tmo2).matched = none) :
    (callModel env true u t1 d1 id1 tmo1).result = Json.null
    ∧ (callModel env2 true u2 t2 d2 id2 tmo2).result = Json.null
    ∧ list_modules_result ((callModel env true u t1 d1 id1 tmo1).result)
        = Json.arr JsonList.nil
    ∧ list_modules_result ((callModel env2 true u2 t2 d2 id2 tmo2).result)
        = Json.arr JsonList.nil := by
  have hr1 : (callModel env true u t1 d1 id1 tmo1).result = Json.null := by
    unfold callModel at h1 ⊢
    cases hres : (read_response env id1 tmo1 u).result with
    | none => simp [hres] at h1
    | some r2 =>
      simp [hres] at h1 ⊢
      rw [h1]
      unfold getOrNull
      rw [h2]
      rfl
  have hr2 : (callModel env2 true u2 t2 d2 id2 tmo2).result = Json.null := by
    unfold callModel at h3 ⊢
    cases hres : (read_response env2 id2 tmo2 u2).result with
    | none => simp [hres]
    | some r2 => simp [hres] at h3
  refine ⟨hr1, hr2, ?_, ?_⟩
  · rw [hr1]
    rfl
  · rw [hr2]
    rfl

/-- Witness for C10: a host response `{"id": 43, "data": null}` and a
silent host give `_call` the same `None`, and `list_modules` the same
`[]`. -/
theorem null_data_indistinguishable_witness :
    (callModel env43 true true (pys ("get-url")) Json.null 43 100).result = Json.null
    ∧ (callModel envEmpty true true (pys ("get-url")) Json.null 43 100).result = Json.null
    ∧ list_modules_result ((callModel env43 true true (pys ("get-url")) Json.null 43 100).result)
        = Json.arr JsonList.nil
    ∧ list_modules_result ((callModel envEmpty true true (pys ("get-url")) Json.null 43 100).result)
        = Json.arr JsonList.nil :=
  null_data_indistinguishable env43 envEmpty true true (pys ("get-url")) (pys ("get-url"))
    Json.null Json.null 43 43 100 100 rNull rfl rfl rfl

